import Mathlib

/-!
# Form-to-mail relay (`server/app.js`): embedding and verified properties

The server receives two kinds of form submissions (`/api/partner`, `/api/apply`),
turns the submitted fields into an HTML table, the uploaded files into mail
attachments, and hands one message to an SMTP transport.

The embedding below follows `server/app.js` function by function.

* JavaScript values are the inductive type `JsVal`; `process.env` entries are
  `Option String` (an environment variable is a string or is missing).
* JavaScript objects are `JsObject`: the own properties in creation order. The order
  in which `Object.entries`, `Object.values` and object spread visit them is the
  language's own-property order (`ownPropertyOrder`).
* `try { ... } catch (err) { ... }` is a computation in `Except JsError`.
* Field values are first taken from the value domain of the data model (scalars and
  sequences, `JsVal`), on which no conversion to text can throw; the handlers are then
  given on arbitrary parsed bodies (`RawVal`, nested objects included), where rendering
  can throw, and shown to agree with the former on bodies without objects.
* The collaborators that the server only calls (`transporter.sendMail`, the clock,
  `req.ip`) are parameters.
-/

namespace BharatByte

/-! ## JavaScript values -/

/-- A JavaScript value as it can reach the handlers from a parsed request body:
`undefined`, `null`, booleans, numbers, strings and arrays of such values. A number is
carried as the text `Number::toString` gives for it (so `0` and `-0` are `"0"`); plain
objects nested inside a body are not part of this value universe. -/
inductive JsVal where
  | undefined
  | null
  | bool (b : Bool)
  | num (text : String)
  | str (s : String)
  | arr (xs : List JsVal)

namespace JsVal

/-- The language's `ToBoolean`: `undefined`, `null`, `false`, `0`, `NaN` and `''` are
falsy, everything else (every array included) is truthy. -/
def truthy : JsVal → Bool
  | undefined => false
  | null => false
  | bool b => b
  | num t => !(t == "0" || t == "NaN")
  | str s => !(s == "")
  | arr _ => true

/-- The expression `a || b`. -/
def or (a b : JsVal) : JsVal := if a.truthy then a else b

/-- The test `Array.isArray(v)`. -/
def isArray : JsVal → Bool
  | arr _ => true
  | _ => false

/-- The test `v == null` (true for `null` and `undefined` only). -/
def isNullish : JsVal → Bool
  | undefined => true
  | null => true
  | _ => false

/-- The test `v === s` against a string literal `s`. -/
def strictEqStr : JsVal → String → Bool
  | str t, s => t == s
  | _, _ => false

mutual
/-- The language's `ToString`, as used by `String(v)` and by template literals. -/
def toStr : JsVal → String
  | undefined => "undefined"
  | null => "null"
  | bool b => if b then "true" else "false"
  | num t => t
  | str s => s
  | arr xs => joinWith "," xs
/-- The method `xs.join(sep)`. -/
def joinWith (sep : String) : List JsVal → String
  | [] => ""
  | [x] => joinElem x
  | x :: y :: rest => joinElem x ++ sep ++ joinWith sep (y :: rest)
/-- The text one array element contributes to `join`: nothing for `undefined` and
`null`, its `ToString` otherwise. -/
def joinElem : JsVal → String
  | undefined => ""
  | null => ""
  | bool b => if b then "true" else "false"
  | num t => t
  | str s => s
  | arr xs => joinWith "," xs
end

end JsVal

/-- The expression `a || b` on two `process.env` entries. -/
def envOr (a b : Option String) : Option String :=
  match a with
  | some s => if s = "" then b else some s
  | none => b

/-- The test `!x` on a `process.env` entry: true when it is missing or empty. -/
def envFalsy : Option String → Bool
  | some s => s == ""
  | none => true

/-- The conversion of a string-or-undefined (`req.ip`) to a `JsVal`. -/
def optStr : Option String → JsVal
  | some s => .str s
  | none => .undefined

/-! ## JavaScript objects and own-property order -/

/-- An ordinary object: its own enumerable string-keyed properties, in the order in
which they were created. -/
structure JsObject (α : Type) where
  props : List (String × α)

/-- The value of the decimal digit `c`. -/
def digitVal (c : Char) : Nat := c.toNat - 48

/-- The number written by a list of decimal digits. -/
def parseDigits (cs : List Char) : Nat := cs.foldl (fun acc c => 10 * acc + digitVal c) 0

/-- The array index a property key denotes, if any: the key is the canonical decimal
text (no sign, no leading zero) of an integer between 0 and 2^32 - 2. -/
def arrayIndex (k : String) : Option Nat :=
  match k.data with
  | [] => none
  | c :: cs =>
    if (c :: cs).all Char.isDigit && (c != '0' || cs.isEmpty) then
      if parseDigits (c :: cs) ≤ 4294967294 then some (parseDigits (c :: cs)) else none
    else none

/-- The test: is the key of this property an array index. -/
def isIndexProp {α : Type} (p : String × α) : Bool := (arrayIndex p.1).isSome

/-- The array index of a property's key (0 when the key is not an index). -/
def propIndex {α : Type} (p : String × α) : Nat := (arrayIndex p.1).getD 0

/-- The order of two properties by the array index of their keys. -/
def indexLE {α : Type} (p q : String × α) : Prop := propIndex p ≤ propIndex q

instance indexLE_decidable {α : Type} : DecidableRel (indexLE : String × α → String × α → Prop) :=
  fun p q => Nat.decLe (propIndex p) (propIndex q)

instance indexLE_total {α : Type} : IsTotal (String × α) indexLE :=
  ⟨fun a b => Nat.le_total (propIndex a) (propIndex b)⟩

instance indexLE_trans {α : Type} : IsTrans (String × α) indexLE :=
  ⟨fun _ _ _ h1 h2 => Nat.le_trans h1 h2⟩

/-- The language's own-property order (`OrdinaryOwnPropertyKeys`): first the properties
whose key is an array index, in ascending numeric order, then all other properties in
creation order. -/
def ownPropertyOrder {α : Type} (props : List (String × α)) : List (String × α) :=
  List.insertionSort indexLE (props.filter isIndexProp) ++ props.filter (fun p => !isIndexProp p)

/-- Assignment of one property in a property list: an existing key keeps its place and
takes the new value, a new key is appended. -/
def setProp {α : Type} (k : String) (v : α) : List (String × α) → List (String × α)
  | [] => [(k, v)]
  | (k', v') :: rest => if k' = k then (k', v) :: rest else (k', v') :: setProp k v rest

namespace JsObject

/-- The empty object literal. -/
def empty {α : Type} : JsObject α := ⟨[]⟩

/-- The own property `k`, if there is one. -/
def get? {α : Type} (o : JsObject α) (k : String) : Option α := o.props.lookup k

/-- The property access `o.k`: `undefined` when there is no such property. -/
def get (o : JsObject JsVal) (k : String) : JsVal := (o.get? k).getD .undefined

/-- The definition of property `k` with value `v` (as an object literal does for each
of its members). -/
def set {α : Type} (o : JsObject α) (k : String) (v : α) : JsObject α := ⟨setProp k v o.props⟩

/-- The keys in creation (insertion) order. -/
def insertionKeys {α : Type} (o : JsObject α) : List String := o.props.map Prod.fst

/-- The result of `Object.entries(o)`. -/
def entries {α : Type} (o : JsObject α) : List (String × α) := ownPropertyOrder o.props

/-- The result of `Object.keys(o)`. -/
def keys {α : Type} (o : JsObject α) : List String := o.entries.map Prod.fst

/-- The result of `Object.values(o)`. -/
def values {α : Type} (o : JsObject α) : List α := o.entries.map Prod.snd

/-- The spread `{ ...o }`: a fresh object that receives the properties of `o` in the
order `Object.entries` visits them. -/
def spread {α : Type} (o : JsObject α) : JsObject α := ⟨o.entries⟩

/-- Well-formedness of an object: no key occurs twice. -/
def WF {α : Type} (o : JsObject α) : Prop := (o.props.map Prod.fst).Nodup

end JsObject

/-! ## `server/app.js`: helpers -/

/-- The raw bytes of an uploaded file. -/
abbrev Buffer := List (Fin 256)

/-- The file descriptor the upload parser produces (the properties the server reads);
a property that is not set is `none`. -/
structure UploadedFile where
  originalname : Option String
  buffer : Option Buffer
  mimetype : Option String
  deriving DecidableEq

/-- The attachment descriptor handed to the mailer. -/
structure Attachment where
  filename : Option String
  content : Option Buffer
  contentType : String
  deriving DecidableEq

/-- The expression `a || d` where `a` is a string or undefined and `d` a string
literal. -/
def strOr (a : Option String) (d : String) : String :=
  match a with
  | some s => if s = "" then d else s
  | none => d

/-- The function `fileToAttachment` of `server/app.js`. -/
def fileToAttachment (f : UploadedFile) : Attachment :=
  { filename := f.originalname
    content := f.buffer
    contentType := strOr f.mimetype "application/octet-stream" }

/-- The argument of `toArray`: nothing (a falsy value), an array, or one single
object. -/
inductive ArrayLike (α : Type) where
  | absent
  | many (xs : List α)
  | one (x : α)

/-- The function `toArray` of `server/app.js`. -/
def toArray {α : Type} : ArrayLike α → List α
  | .absent => []
  | .many xs => xs
  | .one x => [x]

/-- The constant `val` inside `buildHtmlFromFields`: the text of one value. -/
def renderValue : JsVal → String
  | .arr xs => JsVal.joinWith ", " xs
  | v => if v.isNullish then "" else v.toStr

/-- The template literal that `buildHtmlFromFields` maps over the entries: one table
row for the key `k` and the value `v`. -/
def renderRow (k : String) (v : JsVal) : String :=
  "<tr><td style=\"padding:6px 10px;border:1px solid #eee;font-weight:600\">" ++ k
    ++ "</td><td style=\"padding:6px 10px;border:1px solid #eee\">" ++ renderValue v
    ++ "</td></tr>"

/-- The array `Object.entries(fields).map(...)` of `buildHtmlFromFields`, before it is
joined. -/
def renderRows (fields : JsObject JsVal) : List String :=
  fields.entries.map (fun kv => renderRow kv.1 kv.2)

/-- The text of the returned template up to and including the opening table tag. -/
def htmlHead : String :=
  "\n    <div style=\"font-family:Inter,Arial,sans-serif\">\n      <h2 style=\"margin:0 0 8px 0\">New Form Submission</h2>\n      <table style=\"border-collapse:collapse;border:1px solid #eee\">"

/-- The text of the returned template from the closing table tag on. -/
def htmlTail : String := "</table>\n    </div>\n  "

/-- The function `buildHtmlFromFields` of `server/app.js`. -/
def buildHtmlFromFields (fields : JsObject JsVal) : String :=
  let rows := String.join (renderRows fields)
  htmlHead ++ rows ++ htmlTail

/-! ## `server/app.js`: the transport -/

/-- The entries of `process.env` that the server reads. -/
structure Env where
  SMTP_HOST : Option String
  SMTP_PORT : Option String
  SMTP_SECURE : Option String
  SMTP_USER : Option String
  SMTP_PASS : Option String
  MAIL_FROM : Option String
  MAIL_TO : Option String

/-- The result of `Number(x)`: of a numeric literal, or of a non-empty string (whose
numeric reading is left uninterpreted). -/
inductive JsNumber where
  | ofNat (n : Nat)
  | ofText (s : String)
  deriving DecidableEq

/-- The `auth` member of the transport options. -/
structure Auth where
  user : Option String
  pass : Option String
  deriving DecidableEq

/-- The options object passed to `nodemailer.createTransport`, which is the transport
as far as the server is concerned. -/
structure Transport where
  host : Option String
  port : JsNumber
  secure : Bool
  auth : Auth
  deriving DecidableEq

/-- A thrown error: its `message` property, if it has one. -/
structure JsError where
  message : Option String
  deriving DecidableEq

/-- The method `toLowerCase`, on the letters A to Z. No character outside A to Z has `t`,
`r`, `u` or `e` as its lower-case form, so the comparison with `true` below is the same
as under full Unicode case conversion. -/
def toLowerCase (s : String) : String := ⟨s.data.map Char.toLower⟩

/-- The message of the error `buildTransporter` throws. -/
def smtpMissingMessage : String :=
  "SMTP configuration missing. Please set SMTP_HOST, SMTP_USER, SMTP_PASS in .env"

/-- The function `buildTransporter` of `server/app.js`. -/
def buildTransporter (env : Env) : Except JsError Transport :=
  let host := env.SMTP_HOST
  let port :=
    match env.SMTP_PORT with
    | some s => if s = "" then JsNumber.ofNat 587 else JsNumber.ofText s
    | none => JsNumber.ofNat 587
  let secure := toLowerCase (strOr env.SMTP_SECURE "false") == "true"
  let user := env.SMTP_USER
  let pass := env.SMTP_PASS
  if envFalsy host || envFalsy user || envFalsy pass then
    .error { message := some smtpMissingMessage }
  else
    .ok { host := host, port := port, secure := secure, auth := { user := user, pass := pass } }

/-! ## `server/app.js`: the two handlers -/

/-- The message object handed to `transporter.sendMail`; its members `from` and `to`
are the fields `mailFrom` and `mailTo`. -/
structure MailOptions where
  mailFrom : Option String
  mailTo : Option String
  subject : JsVal
  html : String
  attachments : List Attachment

/-- The value `transporter.sendMail` resolves with. -/
structure Info where
  messageId : Option String
  deriving DecidableEq

/-- The JSON body of a response. -/
inductive ResponseBody where
  | success (id : Option String)
  | failure (error : String)
  deriving DecidableEq

/-- The HTTP response of a handler: status code and JSON body. -/
structure Response where
  status : Nat
  body : ResponseBody
  deriving DecidableEq

/-- The request as `/api/partner` sees it after `upload.any()`. -/
structure PartnerRequest where
  body : Option (JsObject JsVal)
  files : Option (List UploadedFile)
  ip : Option String

/-- The request as `/api/apply` sees it after `upload.fields(...)`. -/
structure ApplyRequest where
  body : Option (JsObject JsVal)
  files : Option (JsObject (List UploadedFile))
  ip : Option String

/-- The expression `req.body || {}`. -/
def requestBody (body : Option (JsObject JsVal)) : JsObject JsVal := body.getD JsObject.empty

/-- A destructuring pattern member `{ k = d }`: the property, or the default when the
property is `undefined`. -/
def destructure (o : JsObject JsVal) (k : String) (d : JsVal) : JsVal :=
  match o.get k with
  | .undefined => d
  | v => v

/-- The `subject` member of the Partner handler. -/
def partnerSubject (name organisation email : JsVal) : String :=
  "Partner enquiry from " ++ (((name.or organisation).or email).or (.str "Unknown")).toStr

/-- The object `fields` of the Partner handler. -/
def partnerFields (name email organisation enquiry : JsVal) (now : String)
    (ip : Option String) : JsObject JsVal :=
  ⟨[("form", .str "Partner With Us"), ("name", name), ("email", email),
    ("organisation", organisation), ("enquiry", enquiry), ("submitted_at", .str now),
    ("ip", optStr ip)]⟩

/-- The object `mailOptions` of the Partner handler; `now` is the value of
`new Date().toISOString()`. -/
def partnerMailOptions (env : Env) (now : String) (req : PartnerRequest) : MailOptions :=
  let body := requestBody req.body
  let name := destructure body "name" (.str "")
  let email := destructure body "email" (.str "")
  let organisation := destructure body "organisation" (.str "")
  let enquiry := destructure body "enquiry" (.str "")
  let fields := partnerFields name email organisation enquiry now req.ip
  let attachments := (req.files.getD []).map fileToAttachment
  { mailFrom := envOr env.MAIL_FROM env.SMTP_USER
    mailTo := envOr env.MAIL_TO env.SMTP_USER
    subject := .str (partnerSubject name organisation email)
    html := buildHtmlFromFields fields
    attachments := attachments }

/-- The `try`/`catch` of both handlers: a resolved send answers 200 with the message
id, a thrown error answers 500 with its message or `Send failed`. -/
def respond (attempt : Except JsError Info) : Response :=
  match attempt with
  | .ok info => { status := 200, body := .success info.messageId }
  | .error err => { status := 500, body := .failure (strOr err.message "Send failed") }

/-- The handler of `POST /api/partner`. -/
def partnerHandler (env : Env) (sendMail : Transport → MailOptions → Except JsError Info)
    (now : String) (req : PartnerRequest) : Response :=
  respond (do
    let transporter ← buildTransporter env
    let mailOptions := partnerMailOptions env now req
    let info ← sendMail transporter mailOptions
    pure info)

/-- The constant `subject` of the Apply handler (with the constant `mode` it reads). -/
def applySubject (body : JsObject JsVal) : JsVal :=
  let mode := (body.get "mode").or (.str "startup")
  (body.get "subject").or
    (if mode.strictEqStr "startup" then
      .str ("Application: "
        ++ (((body.get "startupName").or (body.get "organisation")).or (.str "")).toStr)
    else .str "Application: Individual")

/-- The object `fields` of the Apply handler. -/
def applyFields (body : JsObject JsVal) (now : String) (ip : Option String) : JsObject JsVal :=
  ((body.spread.set "form" (.str "Apply Now")).set "submitted_at"
    ((body.get "submitted_at").or (.str now))).set "ip" (optStr ip)

/-- The local function `push` of the Apply handler, as a function of the array `files`
it appends to. -/
def push (files : List UploadedFile) (arr : Option (List UploadedFile)) : List UploadedFile :=
  match arr with
  | some a => if a.length ≠ 0 then files ++ a else files
  | none => files

/-- The array `files` of the Apply handler after its four `push` calls. -/
def applyKnownFiles (files : Option (JsObject (List UploadedFile))) : List UploadedFile :=
  let fs : List UploadedFile := []
  let fs := push fs (files.bind (fun o => o.get? "pitch_deck"))
  let fs := push fs (files.bind (fun o => o.get? "dpiit_certificate"))
  let fs := push fs (files.bind (fun o => o.get? "ip_files"))
  let fs := push fs (files.bind (fun o => o.get? "balance_sheets"))
  fs

/-- The constant `attachments` of the Apply handler. The array `files` is built by the
lines before it and is not read again. -/
def applyAttachments (files : Option (JsObject (List UploadedFile))) : List Attachment :=
  let _files := applyKnownFiles files
  let otherAny := ((files.getD JsObject.empty).values).flatten
  let allFiles := if otherAny.length ≠ 0 then otherAny else []
  (toArray (ArrayLike.many allFiles)).map fileToAttachment

/-- The object `mailOptions` of the Apply handler. -/
def applyMailOptions (env : Env) (now : String) (req : ApplyRequest) : MailOptions :=
  let body := requestBody req.body
  let subject := applySubject body
  let fields := applyFields body now req.ip
  let attachments := applyAttachments req.files
  { mailFrom := envOr env.MAIL_FROM env.SMTP_USER
    mailTo := envOr env.MAIL_TO env.SMTP_USER
    subject := subject
    html := buildHtmlFromFields fields
    attachments := attachments }

/-- The handler of `POST /api/apply`. -/
def applyHandler (env : Env) (sendMail : Transport → MailOptions → Except JsError Info)
    (now : String) (req : ApplyRequest) : Response :=
  respond (do
    let transporter ← buildTransporter env
    let mailOptions := applyMailOptions env now req
    let info ← sendMail transporter mailOptions
    pure info)

/-! ## `server/app.js` on arbitrary parsed bodies

The upload parser builds a nested object for a field named like `founder[name]`, and a
JSON body may hold objects as well. Such a value is truthy and is neither an array nor
a string; converting it to text (`String(v)`, a template literal, `join`) throws a
`TypeError` unless it inherits `Object.prototype.toString`. The definitions of this
section follow the same lines of `server/app.js` as the ones above, on values that may
hold such objects, with every conversion in `Except JsError`. -/

/-- A JavaScript value as a parser can deliver it: the values of `JsVal`, and objects.
An object is given by its prototype (`nullProto` for one made with
`Object.create(null)`, as the upload parser does; otherwise `Object.prototype`) and its
own properties, none of which is a function. -/
inductive RawVal where
  | undefined
  | null
  | bool (b : Bool)
  | num (text : String)
  | str (s : String)
  | arr (xs : List RawVal)
  | obj (nullProto : Bool) (props : List (String × RawVal))

/-- The test: does the property list hold the key `k`. -/
def ownKey {α : Type} (props : List (String × α)) (k : String) : Bool :=
  (props.lookup k).isSome

/-- The message of the `TypeError` the engine throws when an object has no primitive
value. -/
def typeErrorMessage : String := "Cannot convert object to primitive value"

/-- The conversion of an object to text (`OrdinaryToPrimitive` with hint string): an
object without prototype has no `toString` or `valueOf` method, and an own property
`toString` (never a function in a parsed body) hides the inherited method while
`valueOf` returns the object itself; in both cases the conversion throws. Otherwise
`Object.prototype.toString` answers. -/
def objectText {α : Type} (nullProto : Bool) (props : List (String × α)) :
    Except JsError String :=
  if nullProto || ownKey props "toString" then .error { message := some typeErrorMessage }
  else .ok "[object Object]"

namespace RawVal

/-- The truth value of a raw value (objects are truthy). -/
def isTruthy : RawVal → Bool
  | undefined => false
  | null => false
  | bool b => b
  | num t => !(t == "0" || t == "NaN")
  | str s => !(s == "")
  | arr _ => true
  | obj _ _ => true

/-- The expression `a || b` on raw values, where `b` is already evaluated. -/
def orElse (a b : RawVal) : RawVal := if a.isTruthy then a else b

/-- The test `v == null` on a raw value. -/
def isNullOrUndefined : RawVal → Bool
  | undefined => true
  | null => true
  | _ => false

/-- The test `v === s` of a raw value against a string literal `s`. -/
def isString : RawVal → String → Bool
  | str t, s => t == s
  | _, _ => false

mutual
/-- The conversion to text of a raw value, as `String(v)` and template literals do it;
it throws where the value is or contains an object without primitive value. -/
def text : RawVal → Except JsError String
  | undefined => .ok "undefined"
  | null => .ok "null"
  | bool b => .ok (if b then "true" else "false")
  | num t => .ok t
  | str s => .ok s
  | arr xs => joinText "," xs
  | obj np props => objectText np props
/-- The method `xs.join(sep)` on raw values: the elements are converted from left to
right, and the first conversion that throws ends the call. -/
def joinText (sep : String) : List RawVal → Except JsError String
  | [] => .ok ""
  | [x] => elemText x
  | x :: y :: rest => do
    let a ← elemText x
    let b ← joinText sep (y :: rest)
    pure (a ++ sep ++ b)
/-- The text one raw array element contributes to `join`. -/
def elemText : RawVal → Except JsError String
  | undefined => .ok ""
  | null => .ok ""
  | bool b => .ok (if b then "true" else "false")
  | num t => .ok t
  | str s => .ok s
  | arr xs => joinText "," xs
  | obj np props => objectText np props
end

end RawVal

/-- The property access `o.k` on an object of raw values. -/
def rawGet (o : JsObject RawVal) (k : String) : RawVal := (o.get? k).getD .undefined

/-- The conversion of `req.ip` to a raw value. -/
def rawOptStr : Option String → RawVal
  | some s => .str s
  | none => .undefined

/-- The expression `req.body || {}` on a raw body. -/
def rawRequestBody (body : Option (JsObject RawVal)) : JsObject RawVal :=
  body.getD JsObject.empty

/-- A destructuring pattern member `{ k = d }` on a raw body. -/
def rawDestructure (o : JsObject RawVal) (k : String) (d : RawVal) : RawVal :=
  match rawGet o k with
  | .undefined => d
  | v => v

/-- The constant `val` inside `buildHtmlFromFields`, on a raw value. -/
def rawRenderValue : RawVal → Except JsError String
  | .arr xs => RawVal.joinText ", " xs
  | v => if v.isNullOrUndefined then .ok "" else v.text

/-- One table row of `buildHtmlFromFields`, on a raw value. -/
def rawRenderRow (k : String) (v : RawVal) : Except JsError String := do
  let val ← rawRenderValue v
  pure ("<tr><td style=\"padding:6px 10px;border:1px solid #eee;font-weight:600\">" ++ k
    ++ "</td><td style=\"padding:6px 10px;border:1px solid #eee\">" ++ val
    ++ "</td></tr>")

/-- The call `Object.entries(fields).map(...)` on raw entries: the rows are made from
left to right, and the first one that throws ends the call. -/
def rawRenderRows : List (String × RawVal) → Except JsError (List String)
  | [] => .ok []
  | kv :: rest => do
    let row ← rawRenderRow kv.1 kv.2
    let rows ← rawRenderRows rest
    pure (row :: rows)

/-- The function `buildHtmlFromFields` of `server/app.js`, on raw fields. -/
def rawBuildHtmlFromFields (fields : JsObject RawVal) : Except JsError String := do
  let rows ← rawRenderRows fields.entries
  pure (htmlHead ++ String.join rows ++ htmlTail)

/-- The message object handed to `transporter.sendMail`, with a raw subject. -/
structure RawMailOptions where
  mailFrom : Option String
  mailTo : Option String
  subject : RawVal
  html : String
  attachments : List Attachment

/-- The request as `/api/partner` sees it, with a raw body. -/
structure RawPartnerRequest where
  body : Option (JsObject RawVal)
  files : Option (List UploadedFile)
  ip : Option String

/-- The request as `/api/apply` sees it, with a raw body. -/
structure RawApplyRequest where
  body : Option (JsObject RawVal)
  files : Option (JsObject (List UploadedFile))
  ip : Option String

/-- The `subject` member of the Partner handler, on raw values. -/
def rawPartnerSubject (name organisation email : RawVal) : Except JsError String := do
  let who ← (((name.orElse organisation).orElse email).orElse (.str "Unknown")).text
  pure ("Partner enquiry from " ++ who)

/-- The object `fields` of the Partner handler, on raw values. -/
def rawPartnerFields (name email organisation enquiry : RawVal) (now : String)
    (ip : Option String) : JsObject RawVal :=
  ⟨[("form", .str "Partner With Us"), ("name", name), ("email", email),
    ("organisation", organisation), ("enquiry", enquiry), ("submitted_at", .str now),
    ("ip", rawOptStr ip)]⟩

/-- The lines of the Partner handler between the transport and the send: fields,
attachments and the object `mailOptions`, whose members `subject` and `html` may
throw. -/
def rawPartnerMailOptions (env : Env) (now : String) (req : RawPartnerRequest) :
    Except JsError RawMailOptions := do
  let body := rawRequestBody req.body
  let name := rawDestructure body "name" (.str "")
  let email := rawDestructure body "email" (.str "")
  let organisation := rawDestructure body "organisation" (.str "")
  let enquiry := rawDestructure body "enquiry" (.str "")
  let fields := rawPartnerFields name email organisation enquiry now req.ip
  let attachments := (req.files.getD []).map fileToAttachment
  let subject ← rawPartnerSubject name organisation email
  let html ← rawBuildHtmlFromFields fields
  pure { mailFrom := envOr env.MAIL_FROM env.SMTP_USER
         mailTo := envOr env.MAIL_TO env.SMTP_USER
         subject := .str subject
         html := html
         attachments := attachments }

/-- The handler of `POST /api/partner` on a raw request. -/
def rawPartnerHandler (env : Env)
    (sendMail : Transport → RawMailOptions → Except JsError Info)
    (now : String) (req : RawPartnerRequest) : Response :=
  respond (do
    let transporter ← buildTransporter env
    let mailOptions ← rawPartnerMailOptions env now req
    let info ← sendMail transporter mailOptions
    pure info)

/-- The constant `subject` of the Apply handler, on a raw body; the template literal is
evaluated only when `body.subject` is falsy and `mode` is `startup`. -/
def rawApplySubject (body : JsObject RawVal) : Except JsError RawVal :=
  let mode := (rawGet body "mode").orElse (.str "startup")
  if (rawGet body "subject").isTruthy then .ok (rawGet body "subject")
  else if mode.isString "startup" then do
    let who ← (((rawGet body "startupName").orElse (rawGet body "organisation")).orElse
      (.str "")).text
    pure (.str ("Application: " ++ who))
  else .ok (.str "Application: Individual")

/-- The object `fields` of the Apply handler, on a raw body. -/
def rawApplyFields (body : JsObject RawVal) (now : String) (ip : Option String) :
    JsObject RawVal :=
  ((body.spread.set "form" (.str "Apply Now")).set "submitted_at"
    ((rawGet body "submitted_at").orElse (.str now))).set "ip" (rawOptStr ip)

/-- The lines of the Apply handler between the transport and the send: subject, fields,
attachments and the object `mailOptions`, whose member `html` may throw. -/
def rawApplyMailOptions (env : Env) (now : String) (req : RawApplyRequest) :
    Except JsError RawMailOptions := do
  let body := rawRequestBody req.body
  let subject ← rawApplySubject body
  let fields := rawApplyFields body now req.ip
  let attachments := applyAttachments req.files
  let html ← rawBuildHtmlFromFields fields
  pure { mailFrom := envOr env.MAIL_FROM env.SMTP_USER
         mailTo := envOr env.MAIL_TO env.SMTP_USER
         subject := subject
         html := html
         attachments := attachments }

/-- The handler of `POST /api/apply` on a raw request. -/
def rawApplyHandler (env : Env)
    (sendMail : Transport → RawMailOptions → Except JsError Info)
    (now : String) (req : RawApplyRequest) : Response :=
  respond (do
    let transporter ← buildTransporter env
    let mailOptions ← rawApplyMailOptions env now req
    let info ← sendMail transporter mailOptions
    pure info)

mutual
/-- A value without objects, as a raw value. -/
def JsVal.toRaw : JsVal → RawVal
  | .undefined => .undefined
  | .null => .null
  | .bool b => .bool b
  | .num t => .num t
  | .str s => .str s
  | .arr xs => .arr (JsVal.listToRaw xs)
/-- A list of values without objects, as raw values. -/
def JsVal.listToRaw : List JsVal → List RawVal
  | [] => []
  | x :: rest => JsVal.toRaw x :: JsVal.listToRaw rest
end

/-- A property of a body without objects, as a raw property. -/
def propToRaw (p : String × JsVal) : String × RawVal := (p.1, p.2.toRaw)

/-- A body without objects, as a raw body. -/
def bodyToRaw (o : JsObject JsVal) : JsObject RawVal := ⟨o.props.map propToRaw⟩

/-- A Partner request without objects, as a raw request. -/
def PartnerRequest.toRaw (req : PartnerRequest) : RawPartnerRequest :=
  { body := req.body.map bodyToRaw, files := req.files, ip := req.ip }

/-- An Apply request without objects, as a raw request. -/
def ApplyRequest.toRaw (req : ApplyRequest) : RawApplyRequest :=
  { body := req.body.map bodyToRaw, files := req.files, ip := req.ip }

/-- A message with a subject without objects, as a raw message. -/
def MailOptions.toRaw (m : MailOptions) : RawMailOptions :=
  { mailFrom := m.mailFrom, mailTo := m.mailTo, subject := m.subject.toRaw,
    html := m.html, attachments := m.attachments }

/-! ## Sample inputs -/

/-- A configuration with the three required entries set and nothing else. -/
def envMinimal : Env :=
  { SMTP_HOST := some "smtp.example.org", SMTP_PORT := none, SMTP_SECURE := none,
    SMTP_USER := some "relay@example.org", SMTP_PASS := some "secret",
    MAIL_FROM := none, MAIL_TO := none }

/-- A Partner request without body, files or address. -/
def partnerRequestEmpty : PartnerRequest := { body := none, files := none, ip := none }

/-- An Apply request without body, files or address. -/
def applyRequestEmpty : ApplyRequest := { body := none, files := none, ip := none }

/-- The transport `buildTransporter` returns for `envMinimal`. -/
def transportMinimal : Transport :=
  { host := some "smtp.example.org", port := .ofNat 587, secure := false,
    auth := { user := some "relay@example.org", pass := some "secret" } }

/-- The time stamp used in the sample requests. -/
def sampleNow : String := "2024-05-01T10:00:00.000Z"

/-- An Apply body whose `subject` field was submitted empty. -/
def bodyBlankSubject : JsObject JsVal := ⟨[("subject", .str "")]⟩

/-- An Apply body whose `mode` field was submitted empty. -/
def bodyBlankMode : JsObject JsVal := ⟨[("mode", .str "")]⟩

/-- An Apply body whose `submitted_at` field was submitted empty. -/
def bodyBlankStamp : JsObject JsVal := ⟨[("submitted_at", .str "")]⟩

/-- A field mapping whose first inserted key is `b` and whose second is the array index
`1`. -/
def fieldsIndexLast : JsObject JsVal := ⟨[("b", .str "x"), ("1", .str "y")]⟩

/-- An uploaded pitch deck. -/
def fileDeck : UploadedFile :=
  { originalname := some "deck.pdf", buffer := some [37, 80, 68, 70],
    mimetype := some "application/pdf" }

/-- An uploaded balance sheet. -/
def fileSheet : UploadedFile :=
  { originalname := some "sheet.xlsx", buffer := some [80, 75], mimetype := none }

/-- The parsed uploads of a request whose `balance_sheets` part arrived before its
`pitch_deck` part. -/
def filesSheetsFirst : JsObject (List UploadedFile) :=
  ⟨[("balance_sheets", [fileSheet]), ("pitch_deck", [fileDeck])]⟩

/-- A Partner request whose multipart field `enquiry[text]` made the parser store an
object without prototype under `enquiry`. -/
def partnerRequestNested : RawPartnerRequest :=
  { body := some ⟨[("name", .str "Acme"), ("enquiry", .obj true [("text", .str "hello")])]⟩,
    files := none, ip := none }

/-- An Apply request whose multipart field `founder[name]` made the parser store an
object without prototype under `founder`. -/
def applyRequestNested : RawApplyRequest :=
  { body := some ⟨[("startupName", .str "Foo"), ("founder", .obj true [("name", .str "Ada")])]⟩,
    files := none, ip := none }

/-! ## Properties stated on messages -/

/-- The message `m` is addressed from the configuration `env`: `to` is MAIL_TO when that
is set and non-empty and SMTP_USER otherwise, `from` is MAIL_FROM when that is set and
non-empty and SMTP_USER otherwise, and both are non-empty strings. -/
def AddressedFromEnv (env : Env) (m : MailOptions) : Prop :=
  (∀ s, env.MAIL_TO = some s → s ≠ "" → m.mailTo = some s)
  ∧ ((env.MAIL_TO = none ∨ env.MAIL_TO = some "") → m.mailTo = env.SMTP_USER)
  ∧ (∀ s, env.MAIL_FROM = some s → s ≠ "" → m.mailFrom = some s)
  ∧ ((env.MAIL_FROM = none ∨ env.MAIL_FROM = some "") → m.mailFrom = env.SMTP_USER)
  ∧ (∃ s, m.mailTo = some s ∧ s ≠ "")
  ∧ (∃ s, m.mailFrom = some s ∧ s ≠ "")

/-! ## Facts about values -/

theorem truthy_str_iff (s : String) : (JsVal.str s).truthy = true ↔ s ≠ "" := by
  simp [JsVal.truthy]

theorem or_of_truthy {a : JsVal} (b : JsVal) (h : a.truthy = true) : a.or b = a := by
  simp [JsVal.or, h]

theorem or_of_falsy {a : JsVal} (b : JsVal) (h : a.truthy = false) : a.or b = b := by
  simp [JsVal.or, h]

theorem envFalsy_iff (o : Option String) : envFalsy o = true ↔ (o = none ∨ o = some "") := by
  cases o with
  | none => simp [envFalsy]
  | some s => simp [envFalsy]

theorem envOr_of_set {s : String} (b : Option String) (h : s ≠ "") :
    envOr (some s) b = some s := by
  simp [envOr, h]

theorem envOr_of_falsy {a : Option String} (b : Option String) (h : a = none ∨ a = some "") :
    envOr a b = b := by
  rcases h with h | h <;> simp [envOr, h]

theorem destructure_truthy (o : JsObject JsVal) (k : String) :
    (destructure o k (.str "")).truthy = (o.get k).truthy := by
  unfold destructure
  cases o.get k <;> simp [JsVal.truthy]

theorem destructure_of_truthy (o : JsObject JsVal) (k : String) (h : (o.get k).truthy = true) :
    destructure o k (.str "") = o.get k := by
  unfold destructure
  cases hk : o.get k <;> simp_all [JsVal.truthy]

/-! ## Facts about objects -/

theorem ownPropertyOrder_perm {α : Type} (l : List (String × α)) :
    (ownPropertyOrder l).Perm l :=
  ((List.perm_insertionSort indexLE (l.filter isIndexProp)).append_right _).trans
    (List.filter_append_perm isIndexProp l)

theorem lookup_cons_if {α : Type} (k ak : String) (av : α) (l : List (String × α)) :
    List.lookup k ((ak, av) :: l) = if k = ak then some av else List.lookup k l := by
  rw [List.lookup_cons]
  by_cases h : k = ak
  · simp [h]
  · have hb : (k == ak) = false := by simpa using h
    simp [hb, h]

theorem key_ne_of_not_indexLE {α : Type} {a b : String × α} (h : ¬ indexLE a b) :
    a.1 ≠ b.1 := by
  intro hab
  apply h
  simp [indexLE, propIndex, hab]

theorem lookup_orderedInsert {α : Type} (k : String) (a : String × α) (l : List (String × α)) :
    (List.orderedInsert indexLE a l).lookup k = (a :: l).lookup k := by
  induction l with
  | nil => rfl
  | cons b l ih =>
    by_cases hab : indexLE a b
    · rw [List.orderedInsert, if_pos hab]
    · rw [List.orderedInsert, if_neg hab]
      have hne := key_ne_of_not_indexLE hab
      obtain ⟨ak, av⟩ := a
      obtain ⟨bk, bv⟩ := b
      simp only [lookup_cons_if] at ih ⊢
      rw [ih]
      by_cases h1 : k = bk
      · have h2 : ¬ (k = ak) := fun h => hne (h.symm.trans h1)
        have h3 : ¬ (bk = ak) := fun h => hne h.symm
        simp [h1, h3]
      · simp [h1]

theorem lookup_insertionSort {α : Type} (k : String) (l : List (String × α)) :
    (List.insertionSort indexLE l).lookup k = l.lookup k := by
  induction l with
  | nil => rfl
  | cons a l ih =>
    rw [List.insertionSort, lookup_orderedInsert]
    obtain ⟨ak, av⟩ := a
    simp only [lookup_cons_if, ih]

theorem lookup_filter_key {α : Type} (q : String → Bool) (k : String) (l : List (String × α)) :
    (l.filter (fun p => q p.1)).lookup k = if q k then l.lookup k else none := by
  induction l with
  | nil => simp
  | cons a l ih =>
    obtain ⟨ak, av⟩ := a
    by_cases hk : k = ak
    · subst hk
      by_cases hq : q k = true
      · simp [List.filter, hq, lookup_cons_if]
      · simp only [Bool.not_eq_true] at hq
        simp [List.filter, hq, ih]
    · by_cases hq : q ak = true
      · simp [List.filter, hq, lookup_cons_if, hk, ih]
      · simp only [Bool.not_eq_true] at hq
        simp [List.filter, hq, lookup_cons_if, hk, ih]

theorem lookup_ownPropertyOrder {α : Type} (k : String) (l : List (String × α)) :
    (ownPropertyOrder l).lookup k = l.lookup k := by
  have h1 := lookup_filter_key (fun s => (arrayIndex s).isSome) k l
  have h2 := lookup_filter_key (fun s => !(arrayIndex s).isSome) k l
  unfold ownPropertyOrder
  rw [List.lookup_append, lookup_insertionSort]
  have e1 : l.filter isIndexProp = l.filter (fun p => (fun s => (arrayIndex s).isSome) p.1) := rfl
  have e2 : l.filter (fun p => !isIndexProp p)
      = l.filter (fun p => (fun s => !(arrayIndex s).isSome) p.1) := rfl
  rw [e1, e2, h1, h2]
  cases (arrayIndex k).isSome <;> simp

theorem lookup_setProp_same {α : Type} (k : String) (v : α) (l : List (String × α)) :
    (setProp k v l).lookup k = some v := by
  induction l with
  | nil => simp [setProp, lookup_cons_if]
  | cons a l ih =>
    obtain ⟨ak, av⟩ := a
    by_cases h : ak = k
    · simp [setProp, h, lookup_cons_if]
    · have h2 : ¬ (k = ak) := fun e => h e.symm
      simp [setProp, h, lookup_cons_if, h2, ih]

theorem lookup_setProp_other {α : Type} {k k' : String} (v : α) (l : List (String × α))
    (hne : k' ≠ k) : (setProp k v l).lookup k' = l.lookup k' := by
  induction l with
  | nil => simp [setProp, lookup_cons_if, hne]
  | cons a l ih =>
    obtain ⟨ak, av⟩ := a
    by_cases h : ak = k
    · have h2 : ¬ (k' = ak) := fun e => hne (e.trans h)
      simp [setProp, h, lookup_cons_if, hne]
    · by_cases h3 : k' = ak
      · simp [setProp, h, lookup_cons_if, h3]
      · simp [setProp, h, lookup_cons_if, h3, ih]

theorem keys_setProp {α : Type} (k : String) (v : α) (l : List (String × α)) :
    (setProp k v l).map Prod.fst
      = if k ∈ l.map Prod.fst then l.map Prod.fst else l.map Prod.fst ++ [k] := by
  induction l with
  | nil => simp [setProp]
  | cons a l ih =>
    obtain ⟨ak, av⟩ := a
    by_cases h : ak = k
    · simp [setProp, h]
    · have h2 : ¬ (k = ak) := fun e => h e.symm
      by_cases hm : k ∈ l.map Prod.fst
      · rw [if_pos hm] at ih
        simp only [List.map_cons] at ih ⊢
        simp only [setProp, h, if_false, List.map_cons, ih]
        rw [if_pos (List.mem_cons_of_mem _ hm)]
      · rw [if_neg hm] at ih
        have hm2 : ¬ (k ∈ (ak :: l.map Prod.fst)) := by
          simp only [List.mem_cons, not_or]
          exact ⟨h2, hm⟩
        simp only [List.map_cons] at ih ⊢
        simp only [setProp, h, if_false, List.map_cons, ih]
        rw [if_neg hm2]
        rfl

theorem mem_keys_setProp {α : Type} (k k' : String) (v : α) (l : List (String × α)) :
    k' ∈ (setProp k v l).map Prod.fst ↔ (k' ∈ l.map Prod.fst ∨ k' = k) := by
  rw [keys_setProp]
  by_cases hm : k ∈ l.map Prod.fst
  · rw [if_pos hm]
    constructor
    · exact Or.inl
    · rintro (h | h)
      · exact h
      · rw [h]
        exact hm
  · rw [if_neg hm]
    simp

theorem nodup_keys_setProp {α : Type} (k : String) (v : α) (l : List (String × α))
    (h : (l.map Prod.fst).Nodup) : ((setProp k v l).map Prod.fst).Nodup := by
  rw [keys_setProp]
  by_cases hm : k ∈ l.map Prod.fst
  · rw [if_pos hm]
    exact h
  · rw [if_neg hm]
    rw [List.nodup_append]
    refine ⟨h, List.nodup_singleton k, ?_⟩
    intro a ha hk
    simp only [List.mem_singleton] at hk
    exact hm (hk ▸ ha)

theorem strictEqStr_iff (v : JsVal) (s : String) : v.strictEqStr s = true ↔ v = .str s := by
  cases v <;> simp [JsVal.strictEqStr]

theorem ownPropertyOrder_of_no_index {α : Type} (l : List (String × α))
    (h : ∀ p ∈ l, isIndexProp p = false) : ownPropertyOrder l = l := by
  have h1 : l.filter isIndexProp = [] := by
    rw [List.filter_eq_nil_iff]
    intro p hp
    simp [h p hp]
  have h2 : l.filter (fun p => !isIndexProp p) = l := by
    rw [List.filter_eq_self]
    intro p hp
    simp [h p hp]
  rw [ownPropertyOrder, h1, h2]
  rfl

theorem intercalate_go_append (p y sep : String) (r : List String) :
    String.intercalate.go (p ++ y) sep r = p ++ String.intercalate.go y sep r := by
  induction r generalizing y with
  | nil => rfl
  | cons a r ih =>
    simp only [String.intercalate.go]
    rw [String.append_assoc, String.append_assoc, ih, String.append_assoc]

theorem joinWith_strs_cons (sep x : String) (rest : List String) :
    JsVal.joinWith sep (JsVal.str x :: rest.map JsVal.str)
      = String.intercalate.go x sep rest := by
  induction rest generalizing x with
  | nil => simp [JsVal.joinWith, JsVal.joinElem, String.intercalate.go]
  | cons y r ih =>
    simp only [List.map_cons, JsVal.joinWith, JsVal.joinElem, String.intercalate.go]
    rw [ih y, intercalate_go_append]

theorem joinWith_strs (sep : String) (ss : List String) :
    JsVal.joinWith sep (ss.map JsVal.str) = sep.intercalate ss := by
  cases ss with
  | nil => simp [JsVal.joinWith, String.intercalate]
  | cons x rest =>
    rw [List.map_cons, joinWith_strs_cons]
    rfl

/-! ## The transport and the responses -/

theorem buildTransporter_of_missing (env : Env)
    (h : (envFalsy env.SMTP_HOST || envFalsy env.SMTP_USER || envFalsy env.SMTP_PASS) = true) :
    buildTransporter env = .error { message := some smtpMissingMessage } := by
  simp only [buildTransporter, h, if_true]

theorem smtpUser_of_built {env : Env} {t : Transport} (h : buildTransporter env = .ok t) :
    ∃ u, env.SMTP_USER = some u ∧ u ≠ "" := by
  cases hm : (envFalsy env.SMTP_HOST || envFalsy env.SMTP_USER || envFalsy env.SMTP_PASS) with
  | true =>
    rw [buildTransporter_of_missing env hm] at h
    cases h
  | false =>
    simp only [Bool.or_eq_false_iff] at hm
    have hu := hm.1.2
    cases hs : env.SMTP_USER with
    | none => simp [hs, envFalsy] at hu
    | some u =>
      refine ⟨u, rfl, ?_⟩
      simpa [hs, envFalsy] using hu

theorem toLowerCase_strOr_true (o : Option String) :
    (toLowerCase (strOr o "false") == "true") = true
      ↔ ∃ s, o = some s ∧ toLowerCase s = "true" := by
  cases o with
  | none =>
    have h : (toLowerCase (strOr none "false") == "true") = false := by decide
    simp [h]
  | some s =>
    by_cases hs : s = ""
    · subst hs
      have h : (toLowerCase (strOr (some "") "false") == "true") = false := by decide
      have h2 : toLowerCase "" ≠ "true" := by decide
      simp [h, h2]
    · simp [strOr, hs]

theorem buildTransporter_ok_of_present (env : Env)
    (hm : (envFalsy env.SMTP_HOST || envFalsy env.SMTP_USER || envFalsy env.SMTP_PASS) = false) :
    buildTransporter env
      = .ok { host := env.SMTP_HOST,
              port := (match env.SMTP_PORT with
                | some s => if s = "" then JsNumber.ofNat 587 else JsNumber.ofText s
                | none => JsNumber.ofNat 587),
              secure := (toLowerCase (strOr env.SMTP_SECURE "false") == "true"),
              auth := { user := env.SMTP_USER, pass := env.SMTP_PASS } } := by
  unfold buildTransporter
  simp only [hm]
  rfl

theorem buildTransporter_fields (env : Env) (t : Transport)
    (ht : buildTransporter env = .ok t) :
    t.host = env.SMTP_HOST ∧ t.auth.user = env.SMTP_USER ∧ t.auth.pass = env.SMTP_PASS
      ∧ ((env.SMTP_PORT = none ∨ env.SMTP_PORT = some "") → t.port = JsNumber.ofNat 587)
      ∧ (∀ s, env.SMTP_PORT = some s → s ≠ "" → t.port = JsNumber.ofText s)
      ∧ (t.secure = true ↔ ∃ s, env.SMTP_SECURE = some s ∧ toLowerCase s = "true") := by
  cases hm : (envFalsy env.SMTP_HOST || envFalsy env.SMTP_USER || envFalsy env.SMTP_PASS) with
  | true =>
    rw [buildTransporter_of_missing env hm] at ht
    cases ht
  | false =>
    rw [buildTransporter_ok_of_present env hm] at ht
    cases ht
    refine ⟨rfl, rfl, rfl, ?_, ?_, toLowerCase_strOr_true env.SMTP_SECURE⟩
    · rintro (h | h) <;> simp [h]
    · intro s hs hne
      simp [hs, hne]

/-- C3. `buildTransporter` throws the "SMTP configuration missing" error exactly when one
of SMTP_HOST, SMTP_USER, SMTP_PASS is empty or absent; in every other case it returns the
transport made of host, port, secure and auth (user, pass), for any SMTP_PORT and
SMTP_SECURE: the port is `Number(SMTP_PORT)` when SMTP_PORT is set and non-empty and 587
otherwise, and secure is true exactly when SMTP_SECURE is set and reads `true` in lower
case. -/
theorem buildTransporter_throws_iff_missing (env : Env) :
    ((∃ err, buildTransporter env = .error err) ↔
        ((env.SMTP_HOST = none ∨ env.SMTP_HOST = some "")
          ∨ (env.SMTP_USER = none ∨ env.SMTP_USER = some "")
          ∨ (env.SMTP_PASS = none ∨ env.SMTP_PASS = some "")))
    ∧ (∀ err, buildTransporter env = .error err → err.message = some
        "SMTP configuration missing. Please set SMTP_HOST, SMTP_USER, SMTP_PASS in .env")
    ∧ ((∀ err, buildTransporter env ≠ .error err) →
        buildTransporter env
          = .ok { host := env.SMTP_HOST,
                  port := (match env.SMTP_PORT with
                    | some s => if s = "" then JsNumber.ofNat 587 else JsNumber.ofText s
                    | none => JsNumber.ofNat 587),
                  secure := (toLowerCase (strOr env.SMTP_SECURE "false") == "true"),
                  auth := { user := env.SMTP_USER, pass := env.SMTP_PASS } })
    ∧ (∀ t, buildTransporter env = .ok t →
        t.host = env.SMTP_HOST ∧ t.auth.user = env.SMTP_USER ∧ t.auth.pass = env.SMTP_PASS
        ∧ ((env.SMTP_PORT = none ∨ env.SMTP_PORT = some "") → t.port = JsNumber.ofNat 587)
        ∧ (∀ s, env.SMTP_PORT = some s → s ≠ "" → t.port = JsNumber.ofText s)
        ∧ (t.secure = true ↔ ∃ s, env.SMTP_SECURE = some s ∧ toLowerCase s = "true"))
    ∧ (∀ t, buildTransporter { env with SMTP_PORT := some "465", SMTP_SECURE := some "TRUE" }
          = .ok t → t.port = JsNumber.ofText "465" ∧ t.secure = true) := by
  have hok := buildTransporter_ok_of_present env
  have hfields := buildTransporter_fields env
  have hsample : ∀ t,
      buildTransporter { env with SMTP_PORT := some "465", SMTP_SECURE := some "TRUE" }
          = .ok t → t.port = JsNumber.ofText "465" ∧ t.secure = true := by
    intro t ht
    have h := buildTransporter_fields _ t ht
    exact ⟨h.2.2.2.2.1 "465" rfl (by decide), h.2.2.2.2.2.2 ⟨"TRUE", rfl, by decide⟩⟩
  cases hm : (envFalsy env.SMTP_HOST || envFalsy env.SMTP_USER || envFalsy env.SMTP_PASS) with
  | true =>
    have hb := buildTransporter_of_missing env hm
    have hmiss : (env.SMTP_HOST = none ∨ env.SMTP_HOST = some "")
          ∨ (env.SMTP_USER = none ∨ env.SMTP_USER = some "")
          ∨ (env.SMTP_PASS = none ∨ env.SMTP_PASS = some "") := by
      simp only [Bool.or_eq_true, envFalsy_iff] at hm
      tauto
    refine ⟨⟨fun _ => hmiss, fun _ => ⟨_, hb⟩⟩, ?_, ?_, hfields, hsample⟩
    · intro err he
      rw [hb] at he
      cases he
      rfl
    · intro hne
      exact absurd hb (hne _)
  | false =>
    have hb := hok hm
    have hpres : ¬ ((env.SMTP_HOST = none ∨ env.SMTP_HOST = some "")
          ∨ (env.SMTP_USER = none ∨ env.SMTP_USER = some "")
          ∨ (env.SMTP_PASS = none ∨ env.SMTP_PASS = some "")) := by
      have h1 : ¬ (envFalsy env.SMTP_HOST = true) := by
        intro h; simp [h] at hm
      have h2 : ¬ (envFalsy env.SMTP_USER = true) := by
        intro h; simp [h] at hm
      have h3 : ¬ (envFalsy env.SMTP_PASS = true) := by
        intro h; simp [h] at hm
      rw [envFalsy_iff] at h1 h2 h3
      tauto
    refine ⟨⟨?_, fun h => absurd h hpres⟩, ?_, fun _ => hb, hfields, hsample⟩
    · rintro ⟨err, he⟩
      rw [hb] at he
      cases he
    · intro err he
      rw [hb] at he
      cases he

/-- C9. `fileToAttachment` is a total function: the file name is the original name, the
content is the byte buffer unchanged, and the content type is the MIME type when that is
set and non-empty, `application/octet-stream` when it is absent or empty. -/
theorem fileToAttachment_fields (f : UploadedFile) :
    (fileToAttachment f).filename = f.originalname
    ∧ (fileToAttachment f).content = f.buffer
    ∧ (∀ m, f.mimetype = some m → m ≠ "" → (fileToAttachment f).contentType = m)
    ∧ ((f.mimetype = none ∨ f.mimetype = some "") →
        (fileToAttachment f).contentType = "application/octet-stream") := by
  refine ⟨rfl, rfl, ?_, ?_⟩
  · intro m hm hne
    simp [fileToAttachment, strOr, hm, hne]
  · rintro (h | h) <;> simp [fileToAttachment, strOr, h]

theorem partnerHandler_of_built {env : Env} {t : Transport}
    (sendMail : Transport → MailOptions → Except JsError Info) (now : String)
    (req : PartnerRequest) (h : buildTransporter env = .ok t) :
    partnerHandler env sendMail now req
      = respond (sendMail t (partnerMailOptions env now req)) := by
  unfold partnerHandler
  rw [h]
  simp only [bind, Except.bind, pure, Except.pure]
  cases sendMail t (partnerMailOptions env now req) <;> rfl

theorem applyHandler_of_built {env : Env} {t : Transport}
    (sendMail : Transport → MailOptions → Except JsError Info) (now : String)
    (req : ApplyRequest) (h : buildTransporter env = .ok t) :
    applyHandler env sendMail now req
      = respond (sendMail t (applyMailOptions env now req)) := by
  unfold applyHandler
  rw [h]
  simp only [bind, Except.bind, pure, Except.pure]
  cases sendMail t (applyMailOptions env now req) <;> rfl

theorem partnerHandler_of_unbuilt {env : Env} {err : JsError}
    (sendMail : Transport → MailOptions → Except JsError Info) (now : String)
    (req : PartnerRequest) (h : buildTransporter env = .error err) :
    partnerHandler env sendMail now req = respond (.error err) := by
  unfold partnerHandler
  rw [h]
  rfl

theorem applyHandler_of_unbuilt {env : Env} {err : JsError}
    (sendMail : Transport → MailOptions → Except JsError Info) (now : String)
    (req : ApplyRequest) (h : buildTransporter env = .error err) :
    applyHandler env sendMail now req = respond (.error err) := by
  unfold applyHandler
  rw [h]
  rfl

theorem respond_cases (attempt : Except JsError Info) :
    (∃ id, respond attempt = { status := 200, body := .success id })
      ∨ ∃ e, respond attempt = { status := 500, body := .failure e } := by
  cases attempt with
  | ok info => exact Or.inl ⟨_, rfl⟩
  | error err => exact Or.inr ⟨_, rfl⟩

theorem envOr_nonempty {a b : Option String} (hb : ∃ u, b = some u ∧ u ≠ "") :
    ∃ s, envOr a b = some s ∧ s ≠ "" := by
  cases a with
  | none => simpa [envOr] using hb
  | some s =>
    by_cases hs : s = ""
    · simpa [envOr, hs] using hb
    · exact ⟨s, by simp [envOr, hs], hs⟩

theorem addressedFromEnv_of (env : Env) (m : MailOptions)
    (hu : ∃ u, env.SMTP_USER = some u ∧ u ≠ "")
    (hto : m.mailTo = envOr env.MAIL_TO env.SMTP_USER)
    (hfrom : m.mailFrom = envOr env.MAIL_FROM env.SMTP_USER) : AddressedFromEnv env m := by
  refine ⟨?_, ?_, ?_, ?_, ?_, ?_⟩
  · intro s hs hne
    rw [hto, hs, envOr_of_set _ hne]
  · intro h
    rw [hto, envOr_of_falsy _ h]
  · intro s hs hne
    rw [hfrom, hs, envOr_of_set _ hne]
  · intro h
    rw [hfrom, envOr_of_falsy _ h]
  · rw [hto]
    exact envOr_nonempty hu
  · rw [hfrom]
    exact envOr_nonempty hu

/-! ## Raw bodies: agreement with the bodies without objects -/

theorem isTruthy_toRaw (v : JsVal) : v.toRaw.isTruthy = v.truthy := by
  cases v <;> simp [JsVal.toRaw, RawVal.isTruthy, JsVal.truthy]

theorem orElse_toRaw (a b : JsVal) : (a.toRaw).orElse b.toRaw = (a.or b).toRaw := by
  unfold RawVal.orElse JsVal.or
  rw [isTruthy_toRaw]
  cases a.truthy <;> rfl

theorem isNullOrUndefined_toRaw (v : JsVal) : v.toRaw.isNullOrUndefined = v.isNullish := by
  cases v <;> simp [JsVal.toRaw, RawVal.isNullOrUndefined, JsVal.isNullish]

theorem isString_toRaw (v : JsVal) (s : String) : v.toRaw.isString s = v.strictEqStr s := by
  cases v <;> simp [JsVal.toRaw, RawVal.isString, JsVal.strictEqStr]

mutual
theorem text_toRaw : ∀ v : JsVal, (v.toRaw).text = .ok v.toStr
  | .undefined => rfl
  | .null => rfl
  | .bool _ => rfl
  | .num _ => rfl
  | .str _ => rfl
  | .arr xs => by
    simp only [JsVal.toRaw, RawVal.text, JsVal.toStr]
    exact joinText_toRaw "," xs
theorem joinText_toRaw (sep : String) : ∀ xs : List JsVal,
    RawVal.joinText sep (JsVal.listToRaw xs) = .ok (JsVal.joinWith sep xs)
  | [] => rfl
  | [x] => by
    simp only [JsVal.listToRaw, RawVal.joinText, JsVal.joinWith]
    exact elemText_toRaw x
  | x :: y :: rest => by
    have h1 := elemText_toRaw x
    have h2 := joinText_toRaw sep (y :: rest)
    simp only [JsVal.listToRaw] at h2 ⊢
    simp only [RawVal.joinText, JsVal.joinWith, h1, h2]
    rfl
theorem elemText_toRaw : ∀ v : JsVal, RawVal.elemText (v.toRaw) = .ok (JsVal.joinElem v)
  | .undefined => rfl
  | .null => rfl
  | .bool _ => rfl
  | .num _ => rfl
  | .str _ => rfl
  | .arr xs => by
    simp only [JsVal.toRaw, RawVal.elemText, JsVal.joinElem]
    exact joinText_toRaw "," xs
end

theorem rawRenderValue_toRaw (v : JsVal) : rawRenderValue v.toRaw = .ok (renderValue v) := by
  cases v with
  | arr xs =>
    simp only [JsVal.toRaw, rawRenderValue, renderValue]
    exact joinText_toRaw ", " xs
  | undefined => rfl
  | null => rfl
  | bool b => rfl
  | num t => rfl
  | str t => rfl

theorem rawRenderRow_toRaw (k : String) (v : JsVal) :
    rawRenderRow k v.toRaw = .ok (renderRow k v) := by
  simp only [rawRenderRow, rawRenderValue_toRaw]
  rfl

theorem rawRenderRows_map (l : List (String × JsVal)) :
    rawRenderRows (l.map propToRaw) = .ok (l.map (fun kv => renderRow kv.1 kv.2)) := by
  induction l with
  | nil => rfl
  | cons kv rest ih =>
    simp only [List.map_cons, rawRenderRows, propToRaw] at ih ⊢
    rw [rawRenderRow_toRaw, ih]
    rfl

theorem arrayIndex_propToRaw (p : String × JsVal) :
    isIndexProp (propToRaw p) = isIndexProp p ∧ propIndex (propToRaw p) = propIndex p :=
  ⟨rfl, rfl⟩

theorem ownPropertyOrder_map_propToRaw (l : List (String × JsVal)) :
    ownPropertyOrder (l.map propToRaw) = (ownPropertyOrder l).map propToRaw := by
  unfold ownPropertyOrder
  rw [List.filter_map, List.filter_map, List.map_append]
  have h1 : (isIndexProp ∘ propToRaw) = (isIndexProp : String × JsVal → Bool) := rfl
  have h2 : ((fun p : String × RawVal => !isIndexProp p) ∘ propToRaw)
      = (fun p : String × JsVal => !isIndexProp p) := rfl
  rw [h1, h2]
  congr 1
  symm
  apply List.map_insertionSort
  intro a _ b _
  rfl

theorem entries_bodyToRaw (o : JsObject JsVal) :
    (bodyToRaw o).entries = o.entries.map propToRaw :=
  ownPropertyOrder_map_propToRaw o.props

theorem rawBuildHtmlFromFields_toRaw (o : JsObject JsVal) :
    rawBuildHtmlFromFields (bodyToRaw o) = .ok (buildHtmlFromFields o) := by
  simp only [rawBuildHtmlFromFields, entries_bodyToRaw, rawRenderRows_map]
  rfl

theorem lookup_map_propToRaw (k : String) (l : List (String × JsVal)) :
    (l.map propToRaw).lookup k = (l.lookup k).map JsVal.toRaw := by
  induction l with
  | nil => rfl
  | cons a l ih =>
    obtain ⟨ak, av⟩ := a
    simp only [List.map_cons, propToRaw, lookup_cons_if, ih]
    by_cases h : k = ak <;> simp [h]

theorem rawGet_toRaw (o : JsObject JsVal) (k : String) :
    rawGet (bodyToRaw o) k = (o.get k).toRaw := by
  simp only [rawGet, JsObject.get, JsObject.get?, bodyToRaw, lookup_map_propToRaw]
  cases o.props.lookup k <;> rfl

theorem rawDestructure_toRaw (o : JsObject JsVal) (k : String) (d : JsVal) :
    rawDestructure (bodyToRaw o) k d.toRaw = (destructure o k d).toRaw := by
  unfold rawDestructure destructure
  rw [rawGet_toRaw]
  cases o.get k <;> simp [JsVal.toRaw]

theorem rawRequestBody_toRaw (b : Option (JsObject JsVal)) :
    rawRequestBody (b.map bodyToRaw) = bodyToRaw (requestBody b) := by
  cases b <;> rfl

theorem rawOptStr_eq (ip : Option String) : rawOptStr ip = (optStr ip).toRaw := by
  cases ip <;> rfl

theorem rawPartnerSubject_toRaw (name organisation email : JsVal) :
    rawPartnerSubject name.toRaw organisation.toRaw email.toRaw
      = .ok (partnerSubject name organisation email) := by
  unfold rawPartnerSubject partnerSubject
  have h : (JsVal.str "Unknown").toRaw = RawVal.str "Unknown" := rfl
  rw [orElse_toRaw, orElse_toRaw, ← h, orElse_toRaw, text_toRaw]
  rfl

theorem rawPartnerFields_toRaw (name email organisation enquiry : JsVal) (now : String)
    (ip : Option String) :
    rawPartnerFields name.toRaw email.toRaw organisation.toRaw enquiry.toRaw now ip
      = bodyToRaw (partnerFields name email organisation enquiry now ip) := by
  simp only [rawPartnerFields, partnerFields, bodyToRaw, List.map_cons, List.map_nil,
    propToRaw, rawOptStr_eq]
  rfl

theorem rawPartnerMailOptions_toRaw (env : Env) (now : String) (req : PartnerRequest) :
    rawPartnerMailOptions env now req.toRaw = .ok (partnerMailOptions env now req).toRaw := by
  have hs : (JsVal.str "").toRaw = RawVal.str "" := rfl
  simp only [rawPartnerMailOptions, PartnerRequest.toRaw, rawRequestBody_toRaw]
  rw [← hs]
  simp only [rawDestructure_toRaw, rawPartnerSubject_toRaw, rawPartnerFields_toRaw,
    rawBuildHtmlFromFields_toRaw]
  rfl

theorem setProp_map_propToRaw (k : String) (v : JsVal) (l : List (String × JsVal)) :
    setProp k v.toRaw (l.map propToRaw) = (setProp k v l).map propToRaw := by
  induction l with
  | nil => rfl
  | cons a l ih =>
    obtain ⟨ak, av⟩ := a
    by_cases h : ak = k
    · simp [setProp, propToRaw, h]
    · simp only [List.map_cons, propToRaw, setProp, h, if_false] at ih ⊢
      rw [ih]

theorem rawApplyFields_toRaw (body : JsObject JsVal) (now : String) (ip : Option String) :
    rawApplyFields (bodyToRaw body) now ip = bodyToRaw (applyFields body now ip) := by
  have hf : (JsVal.str "Apply Now").toRaw = RawVal.str "Apply Now" := rfl
  have hn : (JsVal.str now).toRaw = RawVal.str now := rfl
  simp only [rawApplyFields, applyFields, JsObject.set, JsObject.spread, rawGet_toRaw,
    rawOptStr_eq, entries_bodyToRaw]
  rw [← hf, ← hn, orElse_toRaw]
  simp only [bodyToRaw, setProp_map_propToRaw]

theorem rawApplySubject_toRaw (body : JsObject JsVal) :
    rawApplySubject (bodyToRaw body) = .ok (applySubject body).toRaw := by
  have hs : (JsVal.str "startup").toRaw = RawVal.str "startup" := rfl
  have he : (JsVal.str "").toRaw = RawVal.str "" := rfl
  simp only [rawApplySubject, applySubject, rawGet_toRaw]
  rw [← hs, ← he]
  simp only [orElse_toRaw, isTruthy_toRaw, isString_toRaw, text_toRaw]
  cases h1 : (body.get "subject").truthy with
  | true => simp [JsVal.or, h1]
  | false =>
    cases h2 : ((body.get "mode").or (.str "startup")).strictEqStr "startup" with
    | true =>
      simp only [JsVal.or, h1, h2, if_true, Bool.false_eq_true, if_false]
      rfl
    | false =>
      simp only [JsVal.or, h1, h2, Bool.false_eq_true, if_false]
      rfl

theorem rawApplyMailOptions_toRaw (env : Env) (now : String) (req : ApplyRequest) :
    rawApplyMailOptions env now req.toRaw = .ok (applyMailOptions env now req).toRaw := by
  simp only [rawApplyMailOptions, ApplyRequest.toRaw, rawRequestBody_toRaw,
    rawApplySubject_toRaw, rawApplyFields_toRaw, rawBuildHtmlFromFields_toRaw]
  rfl

theorem rawPartnerHandler_eq (env : Env)
    (sendMail : Transport → RawMailOptions → Except JsError Info) (now : String)
    (req : RawPartnerRequest) :
    rawPartnerHandler env sendMail now req
      = respond (match buildTransporter env with
          | .error err => .error err
          | .ok t =>
            match rawPartnerMailOptions env now req with
            | .error err => .error err
            | .ok m => sendMail t m) := by
  unfold rawPartnerHandler
  cases buildTransporter env with
  | error err => rfl
  | ok t =>
    cases hm : rawPartnerMailOptions env now req with
    | error err => simp only [bind, Except.bind, hm]
    | ok m =>
      simp only [bind, Except.bind, hm, pure, Except.pure]
      cases sendMail t m <;> rfl

theorem rawApplyHandler_eq (env : Env)
    (sendMail : Transport → RawMailOptions → Except JsError Info) (now : String)
    (req : RawApplyRequest) :
    rawApplyHandler env sendMail now req
      = respond (match buildTransporter env with
          | .error err => .error err
          | .ok t =>
            match rawApplyMailOptions env now req with
            | .error err => .error err
            | .ok m => sendMail t m) := by
  unfold rawApplyHandler
  cases buildTransporter env with
  | error err => rfl
  | ok t =>
    cases hm : rawApplyMailOptions env now req with
    | error err => simp only [bind, Except.bind, hm]
    | ok m =>
      simp only [bind, Except.bind, hm, pure, Except.pure]
      cases sendMail t m <;> rfl

theorem partnerHandler_eq (env : Env)
    (sendMail : Transport → MailOptions → Except JsError Info) (now : String)
    (req : PartnerRequest) :
    partnerHandler env sendMail now req
      = respond (match buildTransporter env with
          | .error err => .error err
          | .ok t => sendMail t (partnerMailOptions env now req)) := by
  cases h : buildTransporter env with
  | error err => exact partnerHandler_of_unbuilt sendMail now req h
  | ok t => exact partnerHandler_of_built sendMail now req h

theorem applyHandler_eq (env : Env)
    (sendMail : Transport → MailOptions → Except JsError Info) (now : String)
    (req : ApplyRequest) :
    applyHandler env sendMail now req
      = respond (match buildTransporter env with
          | .error err => .error err
          | .ok t => sendMail t (applyMailOptions env now req)) := by
  cases h : buildTransporter env with
  | error err => exact applyHandler_of_unbuilt sendMail now req h
  | ok t => exact applyHandler_of_built sendMail now req h



/-- C4. In both handlers a resolved send answers 200 with the body (ok true, id
info.messageId). Whatever throws inside the handler (the transport construction; the
lines that put the message together: subject, rendering of the table, attachments; the
send) is answered 500 with the body (ok false, error), the error text being the message
of the thrown error, or `Send failed` when that message is empty or absent; one of the
two answers is always given. Rendering does throw on a receivable request (a body with a
nested object without prototype), and on bodies without objects the handlers are the
ones given above for such bodies. -/
theorem handlers_respond (env : Env)
    (sendMail : Transport → RawMailOptions → Except JsError Info) (now : String)
    (preq : RawPartnerRequest) (areq : RawApplyRequest) :
    (∀ t m info, buildTransporter env = .ok t →
        rawPartnerMailOptions env now preq = .ok m → sendMail t m = .ok info →
        rawPartnerHandler env sendMail now preq
          = { status := 200, body := .success info.messageId })
    ∧ (∀ err, (buildTransporter env = .error err
          ∨ (∃ t, buildTransporter env = .ok t
              ∧ rawPartnerMailOptions env now preq = .error err)
          ∨ (∃ t m, buildTransporter env = .ok t
              ∧ rawPartnerMailOptions env now preq = .ok m ∧ sendMail t m = .error err)) →
        rawPartnerHandler env sendMail now preq
          = { status := 500,
              body := .failure (match err.message with
                | some m => if m = "" then "Send failed" else m
                | none => "Send failed") })
    ∧ (∀ t m info, buildTransporter env = .ok t →
        rawApplyMailOptions env now areq = .ok m → sendMail t m = .ok info →
        rawApplyHandler env sendMail now areq
          = { status := 200, body := .success info.messageId })
    ∧ (∀ err, (buildTransporter env = .error err
          ∨ (∃ t, buildTransporter env = .ok t
              ∧ rawApplyMailOptions env now areq = .error err)
          ∨ (∃ t m, buildTransporter env = .ok t
              ∧ rawApplyMailOptions env now areq = .ok m ∧ sendMail t m = .error err)) →
        rawApplyHandler env sendMail now areq
          = { status := 500,
              body := .failure (match err.message with
                | some m => if m = "" then "Send failed" else m
                | none => "Send failed") })
    ∧ ((∃ id, rawPartnerHandler env sendMail now preq
          = { status := 200, body := .success id })
        ∨ ∃ e, rawPartnerHandler env sendMail now preq
          = { status := 500, body := .failure e })
    ∧ ((∃ id, rawApplyHandler env sendMail now areq
          = { status := 200, body := .success id })
        ∨ ∃ e, rawApplyHandler env sendMail now areq
          = { status := 500, body := .failure e })
    ∧ rawPartnerMailOptions env now partnerRequestNested
        = .error { message := some "Cannot convert object to primitive value" }
    ∧ (∀ t, buildTransporter env = .ok t →
        rawPartnerHandler env sendMail now partnerRequestNested
          = { status := 500, body := .failure "Cannot convert object to primitive value" })
    ∧ rawApplyMailOptions env now applyRequestNested
        = .error { message := some "Cannot convert object to primitive value" }
    ∧ (∀ t, buildTransporter env = .ok t →
        rawApplyHandler env sendMail now applyRequestNested
          = { status := 500, body := .failure "Cannot convert object to primitive value" })
    ∧ (∀ req : PartnerRequest,
        rawPartnerMailOptions env now req.toRaw = .ok (partnerMailOptions env now req).toRaw
        ∧ rawPartnerHandler env sendMail now req.toRaw
          = partnerHandler env (fun t m => sendMail t m.toRaw) now req)
    ∧ (∀ req : ApplyRequest,
        rawApplyMailOptions env now req.toRaw = .ok (applyMailOptions env now req).toRaw
        ∧ rawApplyHandler env sendMail now req.toRaw
          = applyHandler env (fun t m => sendMail t m.toRaw) now req) := by
  refine ⟨?_, ?_, ?_, ?_, respond_cases _, respond_cases _, rfl, ?_, rfl, ?_, ?_, ?_⟩
  · intro t m info ht hm hs
    rw [rawPartnerHandler_eq, ht]
    simp only [hm, hs]
    rfl
  · rintro err (hb | ⟨t, ht, hm⟩ | ⟨t, m, ht, hm, hs⟩)
    · rw [rawPartnerHandler_eq, hb]
      rfl
    · rw [rawPartnerHandler_eq, ht]
      simp only [hm]
      rfl
    · rw [rawPartnerHandler_eq, ht]
      simp only [hm, hs]
      rfl
  · intro t m info ht hm hs
    rw [rawApplyHandler_eq, ht]
    simp only [hm, hs]
    rfl
  · rintro err (hb | ⟨t, ht, hm⟩ | ⟨t, m, ht, hm, hs⟩)
    · rw [rawApplyHandler_eq, hb]
      rfl
    · rw [rawApplyHandler_eq, ht]
      simp only [hm]
      rfl
    · rw [rawApplyHandler_eq, ht]
      simp only [hm, hs]
      rfl
  · intro t ht
    rw [rawPartnerHandler_eq, ht]
    rfl
  · intro t ht
    rw [rawApplyHandler_eq, ht]
    rfl
  · intro req
    refine ⟨rawPartnerMailOptions_toRaw env now req, ?_⟩
    rw [rawPartnerHandler_eq, partnerHandler_eq, rawPartnerMailOptions_toRaw]
  · intro req
    refine ⟨rawApplyMailOptions_toRaw env now req, ?_⟩
    rw [rawApplyHandler_eq, applyHandler_eq, rawApplyMailOptions_toRaw]

/-- C8. When the transport can be built, the message each handler hands to the mailer
has `to` equal to MAIL_TO when that is configured (non-empty) and to SMTP_USER otherwise,
and `from` equal to MAIL_FROM when that is configured (non-empty) and to SMTP_USER
otherwise; both are non-empty. -/
theorem mail_addressed_from_env (env : Env)
    (sendMail : Transport → MailOptions → Except JsError Info) (now : String)
    (preq : PartnerRequest) (areq : ApplyRequest) (t : Transport)
    (h : buildTransporter env = .ok t) :
    partnerHandler env sendMail now preq
        = respond (sendMail t (partnerMailOptions env now preq))
    ∧ AddressedFromEnv env (partnerMailOptions env now preq)
    ∧ applyHandler env sendMail now areq
        = respond (sendMail t (applyMailOptions env now areq))
    ∧ AddressedFromEnv env (applyMailOptions env now areq) :=
  ⟨partnerHandler_of_built sendMail now preq h,
    addressedFromEnv_of env _ (smtpUser_of_built h) rfl rfl,
    applyHandler_of_built sendMail now areq h,
    addressedFromEnv_of env _ (smtpUser_of_built h) rfl rfl⟩

/-- C8 at a sample input: the minimal configuration builds a transport, and both
messages are addressed from it. -/
theorem mail_addressed_from_env_witness :
    buildTransporter envMinimal = .ok transportMinimal
    ∧ AddressedFromEnv envMinimal (partnerMailOptions envMinimal sampleNow partnerRequestEmpty)
    ∧ AddressedFromEnv envMinimal (applyMailOptions envMinimal sampleNow applyRequestEmpty) :=
  have h := mail_addressed_from_env envMinimal (fun _ _ => .ok { messageId := none })
    sampleNow partnerRequestEmpty applyRequestEmpty transportMinimal rfl
  ⟨rfl, h.2.1, h.2.2.2⟩

/-- C5. The subject of the Partner message is "Partner enquiry from " followed by the
first non-empty value among name, organisation and email, in that order, and by
"Unknown" when all three are empty or absent. -/
theorem partner_subject_precedence (env : Env) (now : String) (req : PartnerRequest) :
    (partnerMailOptions env now req).subject
      = .str ("Partner enquiry from " ++
          (if ((requestBody req.body).get "name").truthy then
            ((requestBody req.body).get "name").toStr
          else if ((requestBody req.body).get "organisation").truthy then
            ((requestBody req.body).get "organisation").toStr
          else if ((requestBody req.body).get "email").truthy then
            ((requestBody req.body).get "email").toStr
          else "Unknown"))
    ∧ (∀ s, (JsVal.str s).truthy = true ↔ s ≠ "")
    ∧ JsVal.undefined.truthy = false ∧ JsVal.null.truthy = false
    ∧ (partnerMailOptions env now
        { body := some ⟨[("name", .str "Acme")]⟩, files := none, ip := none }).subject
        = .str "Partner enquiry from Acme"
    ∧ (partnerMailOptions env now
        { body := some ⟨[("name", .str ""), ("organisation", .str "Beta")]⟩,
          files := none, ip := none }).subject
        = .str "Partner enquiry from Beta"
    ∧ (partnerMailOptions env now
        { body := some ⟨[("name", .str ""), ("organisation", .str ""), ("email", .str "")]⟩,
          files := none, ip := none }).subject
        = .str "Partner enquiry from Unknown" := by
  refine ⟨?_, truthy_str_iff, rfl, rfl, rfl, rfl, rfl⟩
  simp only [partnerMailOptions, partnerSubject]
  generalize requestBody req.body = body
  congr 2
  cases hn : (body.get "name").truthy with
  | true =>
    rw [destructure_of_truthy body "name" hn]
    simp [JsVal.or, hn]
  | false =>
    have hn2 := destructure_truthy body "name"
    rw [hn] at hn2
    cases ho : (body.get "organisation").truthy with
    | true =>
      rw [destructure_of_truthy body "organisation" ho]
      simp [JsVal.or, hn2, ho]
    | false =>
      have ho2 := destructure_truthy body "organisation"
      rw [ho] at ho2
      cases he : (body.get "email").truthy with
      | true =>
        rw [destructure_of_truthy body "email" he]
        simp [JsVal.or, hn2, ho2, he]
      | false =>
        have he2 := destructure_truthy body "email"
        rw [he] at he2
        rw [or_of_falsy _ hn2, or_of_falsy _ ho2, or_of_falsy _ he2]
        rfl

/-! ## The Apply subject and field mapping -/

/-- C6, at the inputs where the claim as written fails: a `subject` field submitted
empty is not the mail subject, and a `mode` field submitted empty (a value other than
`startup`) does not give "Application: Individual". -/
theorem apply_subject_blank_fields :
    (bodyBlankSubject.get? "subject" = some (.str "")
      ∧ applySubject bodyBlankSubject = .str "Application: "
      ∧ applySubject bodyBlankSubject ≠ bodyBlankSubject.get "subject")
    ∧ (bodyBlankMode.get? "mode" = some (.str "")
      ∧ bodyBlankMode.get "mode" ≠ .str "startup"
      ∧ applySubject bodyBlankMode = .str "Application: "
      ∧ applySubject bodyBlankMode ≠ .str "Application: Individual") := by
  refine ⟨⟨rfl, rfl, ?_⟩, rfl, ?_, rfl, ?_⟩
  · intro h
    have h2 : ("Application: " : String) = "" := JsVal.str.inj h
    exact absurd h2 (by decide)
  · intro h
    have h2 : ("" : String) = "startup" := JsVal.str.inj h
    exact absurd h2 (by decide)
  · intro h
    have h2 : ("Application: " : String) = "Application: Individual" := JsVal.str.inj h
    exact absurd h2 (by decide)

/-- C6, amended. The subject of the Apply message is the submitted `subject` field when
that is non-empty (truthy); otherwise, when `mode` is `startup` or is empty or absent
(falsy), it is "Application: " followed by `startupName` when that is non-empty, else by
`organisation` when that is non-empty, else by nothing; otherwise it is
"Application: Individual". -/
theorem apply_subject_cases (env : Env) (now : String) (req : ApplyRequest) :
    (((requestBody req.body).get "subject").truthy = true →
        (applyMailOptions env now req).subject = (requestBody req.body).get "subject")
    ∧ (((requestBody req.body).get "subject").truthy = false →
        (((requestBody req.body).get "mode").truthy = false
          ∨ (requestBody req.body).get "mode" = .str "startup") →
        (applyMailOptions env now req).subject
          = .str ("Application: " ++
              (if ((requestBody req.body).get "startupName").truthy then
                ((requestBody req.body).get "startupName").toStr
              else if ((requestBody req.body).get "organisation").truthy then
                ((requestBody req.body).get "organisation").toStr
              else "")))
    ∧ (((requestBody req.body).get "subject").truthy = false →
        ((requestBody req.body).get "mode").truthy = true →
        (requestBody req.body).get "mode" ≠ .str "startup" →
        (applyMailOptions env now req).subject = .str "Application: Individual")
    ∧ (applyMailOptions env now
        { body := some ⟨[("mode", .str "startup"), ("startupName", .str "Foo")]⟩,
          files := none, ip := none }).subject = .str "Application: Foo"
    ∧ (applyMailOptions env now
        { body := some ⟨[("mode", .str "individual")]⟩,
          files := none, ip := none }).subject = .str "Application: Individual" := by
  refine ⟨?_, ?_, ?_, rfl, rfl⟩
  · intro hs
    show applySubject (requestBody req.body) = _
    unfold applySubject
    exact or_of_truthy _ hs
  · intro hs hm
    show applySubject (requestBody req.body) = _
    generalize requestBody req.body = body at hs hm ⊢
    unfold applySubject
    rw [or_of_falsy _ hs]
    have hmode : (((body.get "mode").or (.str "startup")).strictEqStr "startup") = true := by
      rcases hm with hm | hm
      · rw [or_of_falsy _ hm]
        rfl
      · rw [hm]
        rfl
    simp only [hmode, if_true]
    congr 2
    cases hn : (body.get "startupName").truthy with
    | true =>
      rw [or_of_truthy _ hn, or_of_truthy _ hn]
      simp
    | false =>
      rw [or_of_falsy _ hn]
      cases ho : (body.get "organisation").truthy with
      | true =>
        rw [or_of_truthy _ ho]
        simp
      | false =>
        rw [or_of_falsy _ ho]
        rfl
  · intro hs hm hne
    show applySubject (requestBody req.body) = _
    generalize requestBody req.body = body at hs hm hne ⊢
    unfold applySubject
    rw [or_of_falsy _ hs, or_of_truthy _ hm]
    have hmode : ((body.get "mode").strictEqStr "startup") = false := by
      cases h : (body.get "mode").strictEqStr "startup" with
      | false => rfl
      | true => exact absurd ((strictEqStr_iff _ _).1 h) hne
    simp [hmode]

/-- C7, at the input where the claim as written fails: a `submitted_at` field that is
present in the body with the empty string as its value is replaced by the time stamp. -/
theorem apply_fields_blank_submitted_at :
    bodyBlankStamp.get? "submitted_at" = some (.str "")
    ∧ (applyFields bodyBlankStamp sampleNow none).get? "submitted_at" = some (.str sampleNow)
    ∧ (applyFields bodyBlankStamp sampleNow none).get? "submitted_at"
        ≠ bodyBlankStamp.get? "submitted_at" := by
  refine ⟨rfl, rfl, ?_⟩
  intro h
  have h1 : (applyFields bodyBlankStamp sampleNow none).get? "submitted_at"
      = some (.str sampleNow) := rfl
  have h2 : bodyBlankStamp.get? "submitted_at" = some (.str "") := rfl
  rw [h1, h2] at h
  have h3 : sampleNow = "" := JsVal.str.inj (Option.some.inj h)
  exact absurd h3 (by decide)

theorem get?_applyFields_other (body : JsObject JsVal) (now : String) (ip : Option String)
    (k : String) (h1 : k ≠ "form") (h2 : k ≠ "submitted_at") (h3 : k ≠ "ip") :
    (applyFields body now ip).get? k = body.get? k := by
  simp only [applyFields, JsObject.get?, JsObject.set, JsObject.spread, JsObject.entries]
  rw [lookup_setProp_other _ _ h3, lookup_setProp_other _ _ h2, lookup_setProp_other _ _ h1,
    lookup_ownPropertyOrder]

theorem mem_keys_applyFields (body : JsObject JsVal) (now : String) (ip : Option String)
    (k : String) :
    k ∈ (applyFields body now ip).insertionKeys
      ↔ (k ∈ body.insertionKeys ∨ k = "form" ∨ k = "submitted_at" ∨ k = "ip") := by
  simp only [applyFields, JsObject.insertionKeys, JsObject.set, JsObject.spread,
    JsObject.entries]
  rw [mem_keys_setProp, mem_keys_setProp, mem_keys_setProp,
    ((ownPropertyOrder_perm body.props).map Prod.fst).mem_iff]
  tauto

theorem mem_keys_iff {α : Type} (o : JsObject α) (k : String) :
    k ∈ o.keys ↔ k ∈ o.insertionKeys := by
  simp only [JsObject.keys, JsObject.entries, JsObject.insertionKeys]
  exact ((ownPropertyOrder_perm o.props).map Prod.fst).mem_iff

theorem wf_applyFields (body : JsObject JsVal) (now : String) (ip : Option String)
    (h : body.WF) : (applyFields body now ip).WF := by
  simp only [applyFields, JsObject.WF, JsObject.set, JsObject.spread, JsObject.entries] at h ⊢
  apply nodup_keys_setProp
  apply nodup_keys_setProp
  apply nodup_keys_setProp
  exact ((ownPropertyOrder_perm body.props).map Prod.fst).nodup_iff.2 h

/-- C7, amended. The field mapping rendered into the Apply mail has exactly the keys of
the body together with `form`, `submitted_at` and `ip`; every other key keeps its
submitted value; `form` is "Apply Now" and `ip` is the address the server observed,
whatever was submitted under these names; `submitted_at` is the submitted value when
that is non-empty (truthy), and the current time stamp when it is empty or absent. -/
theorem apply_fields_contents (env : Env) (now : String) (req : ApplyRequest) :
    (applyMailOptions env now req).html
        = buildHtmlFromFields (applyFields (requestBody req.body) now req.ip)
    ∧ (∀ k, k ∈ (applyFields (requestBody req.body) now req.ip).keys
        ↔ (k ∈ (requestBody req.body).keys ∨ k = "form" ∨ k = "submitted_at" ∨ k = "ip"))
    ∧ ((requestBody req.body).WF → (applyFields (requestBody req.body) now req.ip).WF)
    ∧ (∀ k, k ≠ "form" → k ≠ "submitted_at" → k ≠ "ip" →
        (applyFields (requestBody req.body) now req.ip).get? k = (requestBody req.body).get? k)
    ∧ (applyFields (requestBody req.body) now req.ip).get? "form" = some (.str "Apply Now")
    ∧ (applyFields (requestBody req.body) now req.ip).get? "ip" = some (optStr req.ip)
    ∧ (((requestBody req.body).get "submitted_at").truthy = true →
        (applyFields (requestBody req.body) now req.ip).get? "submitted_at"
          = some ((requestBody req.body).get "submitted_at"))
    ∧ (((requestBody req.body).get "submitted_at").truthy = false →
        (applyFields (requestBody req.body) now req.ip).get? "submitted_at"
          = some (.str now)) := by
  refine ⟨rfl, ?_⟩
  generalize requestBody req.body = body
  refine ⟨?_, wf_applyFields body now req.ip, get?_applyFields_other body now req.ip,
    ?_, ?_, ?_, ?_⟩
  · intro k
    rw [mem_keys_iff, mem_keys_iff]
    exact mem_keys_applyFields body now req.ip k
  · simp only [applyFields, JsObject.get?, JsObject.set]
    rw [lookup_setProp_other _ _ (by decide), lookup_setProp_other _ _ (by decide),
      lookup_setProp_same]
  · simp only [applyFields, JsObject.get?, JsObject.set]
    rw [lookup_setProp_same]
  · intro h
    simp only [applyFields, JsObject.get?, JsObject.set]
    rw [lookup_setProp_other _ _ (by decide), lookup_setProp_same, or_of_truthy _ h]
  · intro h
    simp only [applyFields, JsObject.get?, JsObject.set]
    rw [lookup_setProp_other _ _ (by decide), lookup_setProp_same, or_of_falsy _ h]

/-! ## The rendered table -/

/-- C2, at the input where the claim as written fails: the key `b` was inserted before
the key `1`, and the row of `1` comes first in the table. -/
theorem buildHtmlFromFields_index_key_first :
    fieldsIndexLast.insertionKeys = ["b", "1"]
    ∧ renderRows fieldsIndexLast = [renderRow "1" (.str "y"), renderRow "b" (.str "x")]
    ∧ renderRows fieldsIndexLast
        ≠ fieldsIndexLast.props.map (fun kv => renderRow kv.1 kv.2)
    ∧ buildHtmlFromFields fieldsIndexLast
        = htmlHead ++ (renderRow "1" (.str "y") ++ renderRow "b" (.str "x")) ++ htmlTail
    ∧ (applyFields fieldsIndexLast sampleNow none).keys
        = ["1", "b", "form", "submitted_at", "ip"] := by
  refine ⟨rfl, rfl, ?_, rfl, rfl⟩
  intro h
  have h1 : renderRows fieldsIndexLast = [renderRow "1" (.str "y"), renderRow "b" (.str "x")] :=
    rfl
  have h2 : fieldsIndexLast.props.map (fun kv => renderRow kv.1 kv.2)
      = [renderRow "b" (.str "x"), renderRow "1" (.str "y")] := rfl
  rw [h1, h2] at h
  have h3 : renderRow "1" (.str "y") = renderRow "b" (.str "x") := List.head_eq_of_cons_eq h
  have h4 := congrArg (fun t : String => t.data.get? 71) h3
  exact absurd h4 (by decide)

/-- C2, amended. `buildHtmlFromFields` puts, inside its one table element, exactly one
row per key of the mapping; the rows follow the own-property order of the mapping (keys
that are array indices first, in ascending numeric order, then all other keys in
insertion order, which is the insertion order whenever no key is an array index); each
row holds the key in its first cell and in its second cell the value: the elements
joined with ", " for a sequence, the empty string for null and undefined, the string
form otherwise. -/
theorem buildHtmlFromFields_rows (M : JsObject JsVal) :
    buildHtmlFromFields M = htmlHead ++ String.join (renderRows M) ++ htmlTail
    ∧ htmlHead = "\n    <div style=\"font-family:Inter,Arial,sans-serif\">\n      <h2 style=\"margin:0 0 8px 0\">New Form Submission</h2>\n      <table style=\"border-collapse:collapse;border:1px solid #eee\">"
    ∧ htmlTail = "</table>\n    </div>\n  "
    ∧ (renderRows M).length = M.insertionKeys.length
    ∧ renderRows M = M.entries.map (fun kv => renderRow kv.1 kv.2)
    ∧ M.entries.Perm M.props
    ∧ (∃ idx : List (String × JsVal), M.entries = idx ++ M.props.filter (fun p => !isIndexProp p)
        ∧ idx.Perm (M.props.filter isIndexProp) ∧ idx.Sorted indexLE)
    ∧ ((∀ p ∈ M.props, isIndexProp p = false) →
        renderRows M = M.props.map (fun kv => renderRow kv.1 kv.2))
    ∧ (∀ k v, renderRow k v
        = "<tr><td style=\"padding:6px 10px;border:1px solid #eee;font-weight:600\">" ++ k
          ++ "</td><td style=\"padding:6px 10px;border:1px solid #eee\">" ++ renderValue v
          ++ "</td></tr>")
    ∧ (∀ xs, renderValue (.arr xs) = JsVal.joinWith ", " xs)
    ∧ (∀ ss : List String, renderValue (.arr (ss.map JsVal.str)) = ", ".intercalate ss)
    ∧ renderValue .null = ""
    ∧ renderValue .undefined = ""
    ∧ (∀ v, v.isArray = false → v.isNullish = false → renderValue v = v.toStr) := by
  refine ⟨rfl, rfl, rfl, ?_, rfl, ownPropertyOrder_perm M.props, ?_, ?_, fun _ _ => rfl,
    fun _ => rfl, ?_, rfl, rfl, ?_⟩
  · simp only [renderRows, JsObject.entries, JsObject.insertionKeys, List.length_map]
    exact (ownPropertyOrder_perm M.props).length_eq
  · exact ⟨_, rfl, List.perm_insertionSort indexLE _, List.sorted_insertionSort indexLE _⟩
  · intro h
    simp only [renderRows, JsObject.entries]
    rw [ownPropertyOrder_of_no_index _ h]
  · intro ss
    show JsVal.joinWith ", " (ss.map JsVal.str) = _
    exact joinWith_strs ", " ss
  · intro v ha hn
    cases v <;> simp_all [renderValue, JsVal.isArray, JsVal.isNullish]

/-! ## The attachments of an Apply request -/

theorem applyAttachments_eq (files : Option (JsObject (List UploadedFile))) :
    applyAttachments files
      = (((files.getD JsObject.empty).values).flatten).map fileToAttachment := by
  simp only [applyAttachments, toArray]
  split
  · rfl
  · rename_i h
    have h0 : ((files.getD JsObject.empty).values).flatten = [] := by
      apply List.eq_nil_of_length_eq_zero
      simpa using h
    rw [h0]

theorem values_flatten_perm (o : JsObject (List UploadedFile)) :
    (o.values.flatten).Perm ((o.props.map Prod.snd).flatten) :=
  List.Perm.flatten ((ownPropertyOrder_perm o.props).map Prod.snd)

/-- C1, evaluated where the code departs from the claim: the `balance_sheets` part was
recorded before the `pitch_deck` part, the array `files` built in the fixed field order
holds the deck first, and the attachments handed to the mailer hold the sheet first. -/
theorem apply_attachments_recorded_order :
    applyAttachments (some filesSheetsFirst)
        = [fileToAttachment fileSheet, fileToAttachment fileDeck]
    ∧ (applyKnownFiles (some filesSheetsFirst)).map fileToAttachment
        = [fileToAttachment fileDeck, fileToAttachment fileSheet]
    ∧ applyAttachments (some filesSheetsFirst)
        ≠ (applyKnownFiles (some filesSheetsFirst)).map fileToAttachment := by
  refine ⟨by decide, by decide, by decide⟩

/-- C10. For every Apply request, the attachment list of the message the handler hands
to the mailer holds every file of the parsed upload result exactly once, whatever field
it was recorded under: it is the image under `fileToAttachment` of a rearrangement of
all recorded files, its length is the total number of uploaded files, and it is empty
when there are no files. -/
theorem apply_attachments_each_file_once (env : Env) (now : String) (req : ApplyRequest) :
    (∀ (sendMail : Transport → MailOptions → Except JsError Info) (t : Transport),
        buildTransporter env = .ok t →
        applyHandler env sendMail now req
          = respond (sendMail t (applyMailOptions env now req)))
    ∧ (applyMailOptions env now req).attachments = applyAttachments req.files
    ∧ (∃ fs : List UploadedFile,
        (applyMailOptions env now req).attachments = fs.map fileToAttachment
        ∧ fs.Perm (((req.files.getD JsObject.empty).props.map Prod.snd).flatten))
    ∧ ((applyMailOptions env now req).attachments).length
        = (((req.files.getD JsObject.empty).props.map (fun p => p.2.length)).sum)
    ∧ ((∀ p ∈ (req.files.getD JsObject.empty).props, p.2 = []) →
        (applyMailOptions env now req).attachments = [])
    ∧ (applyMailOptions env now { req with files := none }).attachments = []
    ∧ (applyMailOptions env now { req with files := some JsObject.empty }).attachments = []
    ∧ (applyMailOptions env now
        { req with files := some ⟨[("pitch_deck", [fileDeck]), ("cv", [fileSheet])]⟩ }).attachments
        = [fileToAttachment fileDeck, fileToAttachment fileSheet] := by
  have htie : (applyMailOptions env now req).attachments = applyAttachments req.files := rfl
  have hp := values_flatten_perm (req.files.getD JsObject.empty)
  refine ⟨fun sendMail t h => applyHandler_of_built sendMail now req h, htie,
    ⟨_, htie.trans (applyAttachments_eq req.files), hp⟩, ?_, ?_, rfl, rfl, rfl⟩
  · rw [htie, applyAttachments_eq, List.length_map, hp.length_eq, List.length_flatten,
      List.map_map]
    rfl
  · intro h
    rw [htie, applyAttachments_eq]
    have h0 : ((req.files.getD JsObject.empty).props.map Prod.snd).flatten = [] := by
      rw [List.flatten_eq_nil_iff]
      intro l hl
      obtain ⟨p, hp1, hp2⟩ := List.mem_map.1 hl
      rw [← hp2]
      exact h p hp1
    rw [h0] at hp
    rw [hp.eq_nil]
    rfl

end BharatByte
